import Mathlib

/-!
Verification development for the DrawIt / Skribbl-GUTS multiplayer drawing game.

The definitions below are a shallow embedding of the repository's room registry
(src/server/rooms.js), game state machine (server gameState module), the
socket-handler glue around them (server index module), the word pool provider
(src/services/words.ts) and the client-side word-masking projection (App.tsx).
JavaScript numbers are modelled as Int (scores, timer) or Nat (indices, lengths);
nullable values as Option; the in-memory Maps as association lists; in-place
object mutation as functional update of the corresponding list entry.
-/

namespace DrawIt

/-- Word categories, from the WordOption type in src/types ('ACTION' | 'THING' | 'PLACE'). -/
inductive WordCategory where
  | ACTION
  | THING
  | PLACE
deriving DecidableEq

/-- A word option: a word plus its category (src/types WordOption). -/
structure WordOption where
  word : String
  category : WordCategory
deriving DecidableEq

instance : Inhabited WordOption := ⟨⟨"", WordCategory.ACTION⟩⟩

/-- Game phases (gameState module, GamePhase object). -/
inductive GamePhase where
  | MENU
  | HOST_SETUP
  | LOBBY_BROWSER
  | LOBBY_WAITING
  | ROOM_LOBBY
  | ROUND_START
  | TURN_START
  | WORD_SELECTION
  | DRAWING
  | TURN_END
  | ROUND_END
  | GAME_OVER
deriving DecidableEq

/-- A player (src/types Player). The avatar descriptor and player type are
cosmetic and unused by every operation modelled here, so they are omitted. -/
structure Player where
  id : String
  name : String
  score : Int
  hasGuessedCorrectly : Bool
deriving DecidableEq

/-- A chat message (src/types ChatMessage). -/
structure ChatMessage where
  id : String
  playerId : String
  playerName : String
  text : String
  isSystem : Bool
  isCorrectGuess : Bool
  timestamp : Nat
deriving DecidableEq

-- Game constants (gameState module lines 22-26; same values in the client constants file).
def TOTAL_ROUNDS : Nat := 3
def TURN_DURATION_SECONDS : Nat := 80
def POINTS_DRAWER_ALL_GUESSED : Int := 300
def POINTS_GUESS_BASE : Int := 500
def POINTS_GUESS_DECAY : Int := 100

/-- Per-room game state (gameState module, initializeGameState's shape).
The timerInterval handle is opaque; only whether a timer is armed matters. -/
structure GameState where
  phase : GamePhase
  currentRound : Nat
  totalRounds : Nat
  currentPlayerIndex : Nat
  currentWord : Option WordOption
  wordOptions : List WordOption
  timeLeft : Int
  messages : List ChatMessage
  canvasData : Option String
  usedWords : List String
  timerInterval : Option Unit
deriving DecidableEq

/-- The source's initializeGameState (gameState module lines 32-49); the name is
shortened here but the fields and values are the source's. -/
def initGameState : GameState :=
  { phase := GamePhase.ROOM_LOBBY
    currentRound := 1
    totalRounds := TOTAL_ROUNDS
    currentPlayerIndex := 0
    currentWord := none
    wordOptions := []
    timeLeft := 0
    messages := []
    canvasData := none
    usedWords := []
    timerInterval := none }

/-- Fields of a message passed to addMessage by its callers (the id and
timestamp are generated inside addMessage). -/
structure MessageFields where
  playerId : String
  playerName : String
  text : String
  isSystem : Bool
  isCorrectGuess : Bool
deriving DecidableEq

/-- addMessage (gameState module lines 150-161): appends the message, generating
an id and a timestamp. The random id and Date.now() are inputs here. -/
def addMessage (state : GameState) (msgId : String) (now : Nat) (m : MessageFields) : GameState :=
  { state with
      messages := state.messages ++
        [{ id := msgId, playerId := m.playerId, playerName := m.playerName,
           text := m.text, isSystem := m.isSystem, isCorrectGuess := m.isCorrectGuess,
           timestamp := now }] }

/-- endTurn (gameState module lines 207-218): clears any active timer and sets
the phase to TURN_END. The source performs no check of the current phase. -/
def endTurn (state : GameState) : GameState :=
  { state with timerInterval := none, phase := GamePhase.TURN_END }

/-- The reveal text interpolated by handleTurnEnd; when currentWord is null the
JS template renders the string undefined. -/
def revealText (state : GameState) : String :=
  "Time\x27s up! The word was: " ++ ((state.currentWord.map WordOption.word).getD "undefined")

/-- The synchronous mutation performed by the server helper handleTurnEnd
(index module lines 406-435) when room and game state exist: call endTurn, then
append the system reveal message (the source reads currentWord after endTurn;
endTurn does not change it). The broadcast and the 6-second advancement
setTimeout are transport and scheduling side effects outside the state. -/
def handleTurnEndStep (state : GameState) (msgId : String) (now : Nat) : GameState :=
  let s1 := endTurn state
  addMessage s1 msgId now
    { playerId := "system", playerName := "Host", text := revealText s1,
      isSystem := true, isCorrectGuess := false }

/-- JS String.prototype.trim over the characters of the string: drop leading
and trailing whitespace (modelled for the ASCII whitespace characters; JS also
trims some exotic Unicode whitespace, which no claim exercises). -/
def trimChars (s : List Char) : List Char :=
  ((s.dropWhile Char.isWhitespace).reverse.dropWhile Char.isWhitespace).reverse

/-- JS String.prototype.toLowerCase over the characters (ASCII lowering, which
coincides with JS on ASCII input). -/
def lowerChars (s : List Char) : List Char :=
  s.map Char.toLower

/-- checkGuess (gameState module lines 164-172): a guess is correct when,
trimmed and lowercased, it equals the current word lowercased; false when no
word is selected (the source also returns false when the room has no state;
that lookup layer is outside this function). -/
def checkGuess (state : GameState) (guess : String) : Bool :=
  match state.currentWord with
  | none => false
  | some w =>
    let normalizedGuess := lowerChars (trimChars guess.toList)
    let normalizedTarget := lowerChars w.word.toList
    normalizedGuess == normalizedTarget

/-- The value returned by handleCorrectGuess on success (the source also
returns the player object; the updated players list carries that here). -/
structure GuessOutcome where
  points : Int
  allGuessed : Bool
deriving DecidableEq

/-- handleCorrectGuess (gameState module lines 175-204). In-place mutation of
the player objects is modelled by returning the updated list alongside the
result; the null returns are none. Notes kept from the source: the guard
returns null before any mutation; the drawer is read as
players[state.currentPlayerIndex] — when that index is out of range the source
throws a TypeError at the guessRank computation (before any mutation), which is
modelled as the same no-op failure; the filter after the update re-reads
players[state.currentPlayerIndex].id, whose id field the update does not
change, so the drawer id read before the update is used; updating the found
player object is modelled as updating the entries with its id. -/
def handleCorrectGuess (state : GameState) (playerId : String) (players : List Player) :
    Option GuessOutcome × List Player :=
  match players.find? (fun p => p.id == playerId) with
  | none => (none, players)
  | some player =>
    if player.hasGuessedCorrectly then (none, players)
    else
      match players.get? state.currentPlayerIndex with
      | none => (none, players)
      | some drawer0 =>
        let guessRank :=
          (players.filter (fun p => p.hasGuessedCorrectly && !(p.id == drawer0.id))).length
        let points : Int := max (POINTS_GUESS_BASE - (guessRank : Int) * POINTS_GUESS_DECAY) 200
        let players1 := players.map (fun p =>
          if p.id == playerId then
            { p with score := p.score + points, hasGuessedCorrectly := true }
          else p)
        let guessers := players1.filter (fun p => !(p.id == drawer0.id))
        let allGuessed := guessers.all (fun p => p.hasGuessedCorrectly)
        let players2 :=
          if allGuessed then
            players1.map (fun p =>
              if p.id == drawer0.id then { p with score := p.score + POINTS_DRAWER_ALL_GUESSED }
              else p)
          else players1
        (some { points := points, allGuessed := allGuessed }, players2)

/-- The submit-guess handler (index module lines 753-760) schedules
setTimeout(handleTurnEnd, 2000) exactly when the guess result reports
allGuessed; this is that scheduling decision, in milliseconds. -/
def earlyTurnEndDelayMs (res : Option GuessOutcome) : Option Nat :=
  match res with
  | some out => if out.allGuessed then some 2000 else none
  | none => none

/-- The score of the player with the given id (0 when absent). -/
def scoreOf (players : List Player) (i : String) : Int :=
  match players.find? (fun p => p.id == i) with
  | some p => p.score
  | none => 0

/-- Modelled from the spec's words for comparison with the code: the points
for a correct guess at a given rank, max(500 - 100*rank, 200). -/
def specGuessPoints (rank : Nat) : Int :=
  max (500 - 100 * (rank : Int)) 200

/-- Modelled from the spec's words for comparison with the code: the rank of a
new correct guesser is the number of distinct non-drawer players whose
hasGuessedCorrectly flag is already true. -/
def specRank (players : List Player) (drawerId : String) : Nat :=
  (((players.filter (fun p => p.hasGuessedCorrectly && !(p.id == drawerId))).map
      Player.id).dedup).length

/-- A drawing-phase state whose drawer is the member at index 0. -/
def drawingStateIdx0 : GameState :=
  { initGameState with
      phase := GamePhase.DRAWING
      currentPlayerIndex := 0
      currentWord := some ⟨"Cat", WordCategory.THING⟩ }

/-- A room of six members: the drawer at index 0 and five guessers. -/
def sixPlayersEx : List Player :=
  [⟨"d", "Drawer", 0, false⟩, ⟨"g1", "G1", 0, false⟩, ⟨"g2", "G2", 0, false⟩,
   ⟨"g3", "G3", 0, false⟩, ⟨"g4", "G4", 0, false⟩, ⟨"g5", "G5", 0, false⟩]

/-- Run a sequence of correct guesses through handleCorrectGuess, threading the
updated players and collecting the points awarded for each accepted guess. -/
def runGuessSeq (state : GameState) : List String → List Player → List Int
  | [], _ => []
  | pid :: rest, ps =>
    match handleCorrectGuess state pid ps with
    | (some out, ps2) => out.points :: runGuessSeq state rest ps2
    | (none, ps2) => runGuessSeq state rest ps2

def twoPlayersEx : List Player :=
  [⟨"d2", "Draws", 0, false⟩, ⟨"a2", "Ann", 0, false⟩]

/-- Room status (rooms.js line 23): WAITING or PLAYING. -/
inductive RoomStatus where
  | WAITING
  | PLAYING
deriving DecidableEq

/-- A room (rooms.js createRoom's shape). The password is nullable; hostId is
null until the first member arrives. -/
structure Room where
  id : String
  name : String
  isPrivate : Bool
  password : Option String
  hostId : Option String
  players : List Player
  maxPlayers : Nat
  status : RoomStatus
  createdAt : Nat
deriving DecidableEq

/-- Lookup in an association list, modelling Map.prototype.get of the in-memory
rooms and gameStates Maps. -/
def alookup {α : Type} (m : List (String × α)) (k : String) : Option α :=
  (m.find? (fun e => e.1 == k)).map Prod.snd

/-- Replace the value stored under a key, modelling the in-place mutation of
the room or state object held by the Map. -/
def aupdate {α : Type} (m : List (String × α)) (k : String) (v : α) : List (String × α) :=
  m.map (fun e => if e.1 == k then (e.1, v) else e)

/-- Remove a key, modelling Map.prototype.delete. -/
def aerase {α : Type} (m : List (String × α)) (k : String) : List (String × α) :=
  m.filter (fun e => !(e.1 == k))

/-- The failure reasons addPlayerToRoom and removePlayerFromRoom report
(rooms.js lines 57-59 and 80). -/
inductive JoinError where
  | RoomNotFound
  | RoomFull
  | GameInProgress
deriving DecidableEq

/-- createRoom (rooms.js lines 12-29): registers a fresh WAITING room with
capacity 8 and no members. The generated random code and Date.now() are
inputs here. -/
def createRoom (reg : List (String × Room)) (roomCode roomName : String)
    (isPrivate : Bool) (password : Option String) (now : Nat) :
    List (String × Room) × Room :=
  let room : Room :=
    { id := roomCode, name := roomName, isPrivate := isPrivate, password := password,
      hostId := none, players := [], maxPlayers := 8, status := RoomStatus.WAITING,
      createdAt := now }
  (reg ++ [(roomCode, room)], room)

/-- addPlayerToRoom (rooms.js lines 55-75): not-found, full and in-progress
checks, then the already-member rejoin, then append; the first member becomes
host. -/
def addPlayerToRoom (reg : List (String × Room)) (roomCode : String) (player : Player) :
    List (String × Room) × Except JoinError Room :=
  match alookup reg roomCode with
  | none => (reg, Except.error JoinError.RoomNotFound)
  | some room =>
    if room.players.length ≥ room.maxPlayers then (reg, Except.error JoinError.RoomFull)
    else if room.status == RoomStatus.PLAYING then (reg, Except.error JoinError.GameInProgress)
    else
      match room.players.find? (fun p => p.id == player.id) with
      | some _ => (reg, Except.ok room)
      | none =>
        let room2 := { room with players := room.players ++ [player] }
        let room3 :=
          if room2.players.length == 1 then { room2 with hostId := some player.id } else room2
        (aupdate reg roomCode room3, Except.ok room3)

/-- Modelled from the amended claim's words for comparison with
addPlayerToRoom: the same checks in the same order, with membership written as
an any-test and the host rule written as appending to an empty room. -/
def addPlayerSpec (reg : List (String × Room)) (roomCode : String) (player : Player) :
    List (String × Room) × Except JoinError Room :=
  match alookup reg roomCode with
  | none => (reg, Except.error JoinError.RoomNotFound)
  | some room =>
    if room.players.length ≥ room.maxPlayers then (reg, Except.error JoinError.RoomFull)
    else if room.status == RoomStatus.PLAYING then (reg, Except.error JoinError.GameInProgress)
    else if room.players.any (fun p => p.id == player.id) then (reg, Except.ok room)
    else
      let room2 := { room with players := room.players ++ [player] }
      let room3 := if room.players.isEmpty then { room2 with hostId := some player.id } else room2
      (aupdate reg roomCode room3, Except.ok room3)

/-- The success payload of removePlayerFromRoom: the surviving room (null when
deleted) and the deleted flag. -/
structure RemoveResult where
  room : Option Room
  deleted : Bool
deriving DecidableEq

/-- removePlayerFromRoom (rooms.js lines 78-96): filters the member out;
deletes the room when the membership empties; promotes the first remaining
member when the host left. The source reads the new players[0].id, modelled by
head?; the length check guarantees it exists on this branch. -/
def removePlayerFromRoom (reg : List (String × Room)) (roomCode playerId : String) :
    List (String × Room) × Except JoinError RemoveResult :=
  match alookup reg roomCode with
  | none => (reg, Except.error JoinError.RoomNotFound)
  | some room =>
    let remaining := room.players.filter (fun p => !(p.id == playerId))
    if remaining.isEmpty then
      (aerase reg roomCode, Except.ok ⟨none, true⟩)
    else
      let room2 := { room with players := remaining }
      let room3 :=
        if room.hostId == some playerId && decide (0 < remaining.length) then
          { room2 with hostId := (remaining.head?).map Player.id }
        else room2
      (aupdate reg roomCode room3, Except.ok ⟨some room3, false⟩)

/-- A WAITING room already holding its 8-member capacity. -/
def fullRoomEx : Room :=
  { id := "R1", name := "Full", isPrivate := false, password := none, hostId := some "p1",
    players := [⟨"p1", "P1", 0, false⟩, ⟨"p2", "P2", 0, false⟩, ⟨"p3", "P3", 0, false⟩,
      ⟨"p4", "P4", 0, false⟩, ⟨"p5", "P5", 0, false⟩, ⟨"p6", "P6", 0, false⟩,
      ⟨"p7", "P7", 0, false⟩, ⟨"p8", "P8", 0, false⟩],
    maxPlayers := 8, status := RoomStatus.WAITING, createdAt := 0 }

/-- The server's two per-room stores (index module): the room registry and the
game states. -/
structure ServerState where
  rooms : List (String × Room)
  gameStates : List (String × GameState)
deriving DecidableEq

/-- The leave-room handler's state effect (index module lines 574-596, shared
with the disconnect handler): remove the player and, when the room was
deleted, tear down its game state. -/
def leaveRoomStep (s : ServerState) (roomCode playerId : String) : ServerState :=
  match removePlayerFromRoom s.rooms roomCode playerId with
  | (rooms2, Except.ok r) =>
    if r.deleted then { rooms := rooms2, gameStates := aerase s.gameStates roomCode }
    else { rooms := rooms2, gameStates := s.gameStates }
  | (rooms2, Except.error _) => { rooms := rooms2, gameStates := s.gameStates }

/-- A two-member room whose host is about to leave. -/
def roomRemEx : Room :=
  { id := "RM", name := "Rem", isPrivate := false, password := none, hostId := some "h1",
    players := [⟨"h1", "H", 0, false⟩, ⟨"m2", "M", 0, false⟩],
    maxPlayers := 8, status := RoomStatus.PLAYING, createdAt := 0 }

/-- A server holding the two-member room and its game state. -/
def serverEx : ServerState :=
  { rooms := [("RM", roomRemEx)], gameStates := [("RM", initGameState)] }

/-- The round-1 word pool (words.ts lines 4-35). -/
def EASY_WORDS : List WordOption :=
  [
   ⟨"Cat", WordCategory.THING⟩, ⟨"Dog", WordCategory.THING⟩,
   ⟨"Sun", WordCategory.THING⟩, ⟨"Moon", WordCategory.THING⟩,
   ⟨"Tree", WordCategory.THING⟩, ⟨"House", WordCategory.THING⟩,
   ⟨"Car", WordCategory.THING⟩, ⟨"Bird", WordCategory.THING⟩,
   ⟨"Fish", WordCategory.THING⟩, ⟨"Apple", WordCategory.THING⟩,
   ⟨"Run", WordCategory.ACTION⟩, ⟨"Jump", WordCategory.ACTION⟩,
   ⟨"Dance", WordCategory.ACTION⟩, ⟨"Sing", WordCategory.ACTION⟩,
   ⟨"Sleep", WordCategory.ACTION⟩, ⟨"Eat", WordCategory.ACTION⟩,
   ⟨"Drink", WordCategory.ACTION⟩, ⟨"Walk", WordCategory.ACTION⟩,
   ⟨"Swim", WordCategory.ACTION⟩, ⟨"Fly", WordCategory.ACTION⟩,
   ⟨"Park", WordCategory.PLACE⟩, ⟨"Beach", WordCategory.PLACE⟩,
   ⟨"School", WordCategory.PLACE⟩, ⟨"Store", WordCategory.PLACE⟩,
   ⟨"Kitchen", WordCategory.PLACE⟩, ⟨"Bedroom", WordCategory.PLACE⟩,
   ⟨"Garden", WordCategory.PLACE⟩, ⟨"Library", WordCategory.PLACE⟩,
   ⟨"Hospital", WordCategory.PLACE⟩, ⟨"Restaurant", WordCategory.PLACE⟩]

/-- The round-2 word pool (words.ts lines 37-68). -/
def MEDIUM_WORDS : List WordOption :=
  [
   ⟨"Airplane", WordCategory.THING⟩, ⟨"Computer", WordCategory.THING⟩,
   ⟨"Guitar", WordCategory.THING⟩, ⟨"Camera", WordCategory.THING⟩,
   ⟨"Bicycle", WordCategory.THING⟩, ⟨"Telescope", WordCategory.THING⟩,
   ⟨"Volcano", WordCategory.THING⟩, ⟨"Dinosaur", WordCategory.THING⟩,
   ⟨"Robot", WordCategory.THING⟩, ⟨"Submarine", WordCategory.THING⟩,
   ⟨"Climbing", WordCategory.ACTION⟩, ⟨"Skydiving", WordCategory.ACTION⟩,
   ⟨"Surfing", WordCategory.ACTION⟩, ⟨"Cooking", WordCategory.ACTION⟩,
   ⟨"Reading", WordCategory.ACTION⟩, ⟨"Painting", WordCategory.ACTION⟩,
   ⟨"Fishing", WordCategory.ACTION⟩, ⟨"Shopping", WordCategory.ACTION⟩,
   ⟨"Driving", WordCategory.ACTION⟩, ⟨"Swimming", WordCategory.ACTION⟩,
   ⟨"Mountain", WordCategory.PLACE⟩, ⟨"Ocean", WordCategory.PLACE⟩,
   ⟨"Desert", WordCategory.PLACE⟩, ⟨"Forest", WordCategory.PLACE⟩,
   ⟨"City", WordCategory.PLACE⟩, ⟨"Island", WordCategory.PLACE⟩,
   ⟨"Castle", WordCategory.PLACE⟩, ⟨"Museum", WordCategory.PLACE⟩,
   ⟨"Stadium", WordCategory.PLACE⟩, ⟨"Airport", WordCategory.PLACE⟩]

/-- The round-3 word pool (words.ts lines 70-101). Note the source lists
Waterfall under both THING and PLACE and Observatory twice under PLACE. -/
def HARD_WORDS : List WordOption :=
  [
   ⟨"Telescope", WordCategory.THING⟩, ⟨"Microscope", WordCategory.THING⟩,
   ⟨"Helicopter", WordCategory.THING⟩, ⟨"Submarine", WordCategory.THING⟩,
   ⟨"Skyscraper", WordCategory.THING⟩, ⟨"Lighthouse", WordCategory.THING⟩,
   ⟨"Windmill", WordCategory.THING⟩, ⟨"Waterfall", WordCategory.THING⟩,
   ⟨"Rainbow", WordCategory.THING⟩, ⟨"Thunderstorm", WordCategory.THING⟩,
   ⟨"Photography", WordCategory.ACTION⟩, ⟨"Meditation", WordCategory.ACTION⟩,
   ⟨"Exercising", WordCategory.ACTION⟩, ⟨"Gardening", WordCategory.ACTION⟩,
   ⟨"Exploring", WordCategory.ACTION⟩, ⟨"Inventing", WordCategory.ACTION⟩,
   ⟨"Discovering", WordCategory.ACTION⟩, ⟨"Celebrating", WordCategory.ACTION⟩,
   ⟨"Traveling", WordCategory.ACTION⟩, ⟨"Learning", WordCategory.ACTION⟩,
   ⟨"Pyramid", WordCategory.PLACE⟩, ⟨"Rainforest", WordCategory.PLACE⟩,
   ⟨"Waterfall", WordCategory.PLACE⟩, ⟨"Volcano", WordCategory.PLACE⟩,
   ⟨"Glacier", WordCategory.PLACE⟩, ⟨"Canyon", WordCategory.PLACE⟩,
   ⟨"Observatory", WordCategory.PLACE⟩, ⟨"Laboratory", WordCategory.PLACE⟩,
   ⟨"Observatory", WordCategory.PLACE⟩, ⟨"Planetarium", WordCategory.PLACE⟩]

/-- The pool chosen by round (words.ts lines 104-112): easy for round 1,
medium for round 2, hard otherwise. -/
def wordPoolFor (round : Nat) : List WordOption :=
  if round == 1 then EASY_WORDS else if round == 2 then MEDIUM_WORDS else HARD_WORDS

/-- The available words: the round's pool with the excluded words filtered out
(words.ts line 115). -/
def availableFor (round : Nat) (excludeWords : List String) : List WordOption :=
  (wordPoolFor round).filter (fun w => !(excludeWords.contains w.word))

/-- The random index draws: each Math.floor(Math.random() * n) is modelled by
consuming one number from a choice oracle, reduced mod n (0 when the oracle is
exhausted; callers only draw with n positive). -/
def pickIdx : List Nat → Nat → Nat × List Nat
  | [], _ => (0, [])
  | r :: rs, n => (r % n, rs)

/-- One category pick (words.ts lines 125-133): when the category has available
words, push one of them chosen by the oracle. -/
def pickCat (catWords : List WordOption) (sel : List WordOption) (r : List Nat) :
    List WordOption × List Nat :=
  if 0 < catWords.length then
    let p := pickIdx r catWords.length
    (sel ++ [catWords.getD p.1 default], p.2)
  else (sel, r)

/-- The fill loop (words.ts lines 136-141): while fewer than 3 options are
selected and the pool is non-empty, draw a random available word and push it
unless its word is already selected. The source loop spins forever when the
remaining distinct words cannot reach 3; the fuel bound returns the partial
selection in exactly those non-terminating cases, and agrees with the source
whenever the source terminates. -/
def fillOptions : Nat → List WordOption → List WordOption → List Nat →
    List WordOption × List Nat
  | 0, sel, _, r => (sel, r)
  | Nat.succ fuel, sel, avail, r =>
    if sel.length < 3 ∧ 0 < avail.length then
      let p := pickIdx r avail.length
      let w := avail.getD p.1 default
      if sel.any (fun s => s.word == w.word) then fillOptions fuel sel avail p.2
      else fillOptions fuel (sel ++ [w]) avail p.2
    else (sel, r)

/-- The final shuffle (words.ts line 144): sorting with a random comparator
yields an implementation-defined permutation; it is modelled as an extraction
shuffle driven by the oracle, which produces a permutation of its input. -/
def shuffleGo : Nat → List Nat → List WordOption → List WordOption
  | 0, _, l => l
  | Nat.succ n, r, l =>
    if l.length = 0 then l
    else
      let p := pickIdx r l.length
      l.getD p.1 default :: shuffleGo n p.2 (l.eraseIdx p.1)

/-- Run the extraction shuffle over the whole list. -/
def shuffleOptions (r : List Nat) (l : List WordOption) : List WordOption :=
  shuffleGo l.length r l

/-- generateWordOptions (words.ts lines 103-145): filter the pool, pick one
word per non-empty category (ACTION, THING, PLACE in source order), fill up to
3 from the remaining pool, then return the first 3 shuffled. -/
def generateWordOptions (round : Nat) (excludeWords : List String) (rand : List Nat)
    (fuel : Nat) : List WordOption :=
  let availableWords := availableFor round excludeWords
  let actionWords := availableWords.filter (fun w => w.category == WordCategory.ACTION)
  let thingWords := availableWords.filter (fun w => w.category == WordCategory.THING)
  let placeWords := availableWords.filter (fun w => w.category == WordCategory.PLACE)
  let s1 := pickCat actionWords [] rand
  let s2 := pickCat thingWords s1.1 s1.2
  let s3 := pickCat placeWords s2.1 s2.2
  let s4 := fillOptions fuel s3.1 availableWords s3.2
  shuffleOptions s4.2 (s4.1.take 3)

/-- Every hard-pool word except Waterfall and Learning, used to corner the
category picks. -/
def hardExcludeEx : List String :=
  ["Telescope", "Microscope", "Helicopter", "Submarine", "Skyscraper", "Lighthouse",
   "Windmill", "Rainbow", "Thunderstorm", "Photography", "Meditation", "Exercising",
   "Gardening", "Exploring", "Inventing", "Discovering", "Celebrating", "Traveling",
   "Pyramid", "Rainforest", "Volcano", "Glacier", "Canyon", "Observatory",
   "Laboratory", "Planetarium"]


/-- The character class of the regex [a-zA-Z0-9] in getMaskedWord
(App.tsx line 171). -/
def isAlnumChar (c : Char) : Bool :=
  c.isUpper || c.isLower || c.isDigit

/-- The indices revealed by getMaskedWord (App.tsx lines 161-168): elapsed time
is the 80-second duration minus timeLeft; index 0 after 30 seconds, and the
middle index len/2 after 60 seconds on words of length at least 4. Natural
subtraction truncates at 0, which agrees with the source's thresholds for
every timeLeft. -/
def revealIndices (len : Nat) (timeLeft : Nat) : List Nat :=
  (if 30 ≤ TURN_DURATION_SECONDS - timeLeft then [0] else []) ++
    (if 60 ≤ TURN_DURATION_SECONDS - timeLeft ∧ 4 ≤ len then [len / 2] else [])

/-- One character of the projection (App.tsx lines 170-174): non-alphanumeric
characters pass through, revealed indices show the character, and every other
position renders the underscore placeholder. -/
def maskChar (indices : List Nat) (i : Nat) (c : Char) : Char :=
  if !(isAlnumChar c) then c
  else if i ∈ indices then c
  else '_'

/-- The index-threading map over the word's characters. -/
def maskFrom (indices : List Nat) : Nat → List Char → List Char
  | _, [] => []
  | i, c :: cs => maskChar indices i c :: maskFrom indices (i + 1) cs

/-- The masked characters of a word for a remaining time; a pure function of
its inputs, so the stored word is never changed. -/
def maskedChars (word : List Char) (timeLeft : Nat) : List Char :=
  maskFrom (revealIndices word.length timeLeft) 0 word

/-- getMaskedWord (App.tsx lines 159-175): the masked characters joined with
spaces. -/
def getMaskedWord (word : String) (timeLeft : Nat) : String :=
  String.intercalate " " ((maskedChars word.toList timeLeft).map (fun c => String.mk [c]))

/-- startGame's state effect (gameState module lines 75-93); the player score
resets act on the room's player list, outside GameState. -/
def startGameState (state : GameState) : GameState :=
  { state with
      phase := GamePhase.ROUND_START
      currentRound := 1
      currentPlayerIndex := 0
      messages := []
      canvasData := none
      usedWords := [] }

/-- startRound (gameState module lines 96-105). -/
def startRoundState (state : GameState) (roundNum : Nat) : GameState :=
  { state with
      currentRound := roundNum
      phase := GamePhase.ROUND_START
      messages := [] }

/-- startTurn (gameState module lines 108-125): the generated word options are
an input here (the generator is modelled separately); they are appended to
usedWords immediately, and the phase ends at WORD_SELECTION. -/
def startTurnState (state : GameState) (playerIndex : Nat) (words : List WordOption) :
    GameState :=
  { state with
      phase := GamePhase.WORD_SELECTION
      currentPlayerIndex := playerIndex
      currentWord := none
      canvasData := none
      messages := []
      wordOptions := words
      usedWords := state.usedWords ++ words.map WordOption.word }

/-- selectWord (gameState module lines 128-138): sets the word, enters DRAWING
and sets the timer to the 80-second turn duration. -/
def selectWordState (state : GameState) (w : WordOption) : GameState :=
  { state with
      currentWord := some w
      phase := GamePhase.DRAWING
      timeLeft := (TURN_DURATION_SECONDS : Int)
      wordOptions := [] }

/-- updateCanvas (gameState module lines 141-147). -/
def updateCanvasState (state : GameState) (canvasData : String) : GameState :=
  { state with canvasData := some canvasData }

/-- endRound (gameState module lines 221-232): GAME_OVER once the final round
is reached, ROUND_END otherwise. -/
def endRoundState (state : GameState) : GameState :=
  if state.totalRounds ≤ state.currentRound then { state with phase := GamePhase.GAME_OVER }
  else { state with phase := GamePhase.ROUND_END }

/-- decrementTimer (gameState module lines 242-248): clamps at 0 with
Math.max. -/
def decrementTimerState (state : GameState) : GameState :=
  { state with timeLeft := max 0 (state.timeLeft - 1) }

/-- startTurnTimer's state effect (index module lines 383-403): a timer handle
is stored. -/
def armTimerState (state : GameState) : GameState :=
  { state with timerInterval := some () }

/-- The game states reachable through the operations the server invokes,
starting from initialization. updateGameState, which could write arbitrary
fields, is exported by the source but never called. -/
inductive Reachable : GameState → Prop
  | init : Reachable initGameState
  | startGame {s : GameState} : Reachable s → Reachable (startGameState s)
  | startRound {s : GameState} (n : Nat) : Reachable s → Reachable (startRoundState s n)
  | startTurn {s : GameState} (i : Nat) (ws : List WordOption) :
      Reachable s → Reachable (startTurnState s i ws)
  | selectWord {s : GameState} (w : WordOption) : Reachable s → Reachable (selectWordState s w)
  | updateCanvas {s : GameState} (d : String) : Reachable s → Reachable (updateCanvasState s d)
  | addMsg {s : GameState} (mid : String) (now : Nat) (m : MessageFields) :
      Reachable s → Reachable (addMessage s mid now m)
  | armTimer {s : GameState} : Reachable s → Reachable (armTimerState s)
  | endTurnOp {s : GameState} : Reachable s → Reachable (endTurn s)
  | endTurnHandled {s : GameState} (mid : String) (now : Nat) :
      Reachable s → Reachable (handleTurnEndStep s mid now)
  | endRound {s : GameState} : Reachable s → Reachable (endRoundState s)
  | decrement {s : GameState} : Reachable s → Reachable (decrementTimerState s)

/-- A mid-turn DRAWING state used to exercise the turn-end handler. -/
def drawingStateEx : GameState :=
  { initGameState with
      phase := GamePhase.DRAWING
      currentWord := some ⟨"Cat", WordCategory.THING⟩
      timeLeft := 0
      timerInterval := some () }

/-- C1: the claim says a second endTurn/turn-end-handler invocation is a no-op
guarded by the current phase, producing exactly one reveal message. The code
has no such guard: applying the turn-end handler twice to a DRAWING state
appends the system reveal message twice (the phase does end at TURN_END both
times, but the second invocation is not a no-op). -/
theorem c1_double_turn_end_appends_two_reveals :
    ((handleTurnEndStep (handleTurnEndStep drawingStateEx "m1" 1) "m2" 2).messages.map
        (fun m => (m.isSystem, m.text)) =
      [(true, "Time\x27s up! The word was: Cat"), (true, "Time\x27s up! The word was: Cat")])
    ∧ (handleTurnEndStep (handleTurnEndStep drawingStateEx "m1" 1) "m2" 2).phase =
        GamePhase.TURN_END
    ∧ (handleTurnEndStep drawingStateEx "m1" 1).messages.length = 1 := by
  refine ⟨?_, ?_, ?_⟩ <;> rfl

/-- C4: guess evaluation is case-insensitive and trim-insensitive exact
equality: when a word is selected, checkGuess returns true exactly when the
guess, trimmed and lowercased, equals the current word lowercased; in
particular the guess with spaces around a differently-cased word is correct. -/
theorem c4_checkGuess_trim_case_insensitive (state : GameState) (guess : String)
    (w : WordOption) (h : state.currentWord = some w) :
    (checkGuess state guess = true ↔
      lowerChars (trimChars guess.toList) = lowerChars w.word.toList) ∧
    checkGuess { initGameState with currentWord := some ⟨"Cat", WordCategory.THING⟩ }
      "  Cat " = true := by
  constructor
  · simp only [checkGuess, h]
    exact beq_iff_eq
  · decide

/-- C4 witness: the characterization instantiated at a concrete state and guess. -/
theorem c4_checkGuess_witness :
    ((checkGuess { initGameState with currentWord := some ⟨"Cat", WordCategory.THING⟩ }
        " cAt" = true ↔
        lowerChars (trimChars " cAt".toList) = lowerChars "Cat".toList) ∧
      checkGuess { initGameState with currentWord := some ⟨"Cat", WordCategory.THING⟩ }
        "  Cat " = true) :=
  c4_checkGuess_trim_case_insensitive _ " cAt" ⟨"Cat", WordCategory.THING⟩ rfl

/-- C10: the failure path of handleCorrectGuess is a no-op: when the player id
is not among the given players, or that player's hasGuessedCorrectly flag is
already set, the result is null and the players (scores and flags included)
are returned unchanged, so points can never be awarded twice in one turn. -/
theorem c10_failed_guess_is_noop (state : GameState) (pid : String) (players : List Player)
    (h : players.find? (fun p => p.id == pid) = none ∨
      ∃ pl, players.find? (fun p => p.id == pid) = some pl ∧ pl.hasGuessedCorrectly = true) :
    handleCorrectGuess state pid players = (none, players) := by
  rcases h with h | ⟨pl, hf, hg⟩
  · simp [handleCorrectGuess, h]
  · simp [handleCorrectGuess, hf, hg]

/-- C10 witness: a player who already guessed correctly submits again; nothing changes. -/
theorem c10_failed_guess_witness :
    handleCorrectGuess initGameState "a" [⟨"a", "A", 500, true⟩] =
      (none, [⟨"a", "A", 500, true⟩]) :=
  c10_failed_guess_is_noop initGameState "a" [⟨"a", "A", 500, true⟩]
    (Or.inr ⟨⟨"a", "A", 500, true⟩, by decide, rfl⟩)

theorem find?_map_of_preserves_id {f : Player → Player} (hf : ∀ p, (f p).id = p.id)
    (l : List Player) (i : String) :
    (l.map f).find? (fun p => p.id == i) = (l.find? (fun p => p.id == i)).map f := by
  rw [List.find?_map]
  have hpred : ((fun p => p.id == i) ∘ f) = (fun p => p.id == i) := by
    funext p
    simp [Function.comp, hf p]
  rw [hpred]

theorem find?_eq_of_get?_nodup {l : List Player} {i : Nat} {d : Player}
    (hn : (l.map Player.id).Nodup) (h : l.get? i = some d) :
    l.find? (fun p => p.id == d.id) = some d := by
  induction l generalizing i with
  | nil => simp at h
  | cons a t ih =>
    rw [List.map_cons, List.nodup_cons] at hn
    cases i with
    | zero =>
      rw [List.get?_cons_zero] at h
      injection h with h
      subst h
      simp
    | succ j =>
      rw [List.get?_cons_succ] at h
      by_cases hpa : a.id = d.id
      · exact absurd (hpa ▸ List.mem_map_of_mem Player.id (List.get?_mem h)) hn.1
      · rw [List.find?_cons_of_neg _ (by simpa using hpa)]
        exact ih hn.2 h

theorem scoreOf_map_pres (players : List Player) (i : String) (f : Player → Player)
    (hf : ∀ p, (f p).id = p.id) :
    scoreOf (players.map f) i =
      (match players.find? (fun p => p.id == i) with
       | some p => (f p).score
       | none => 0) := by
  unfold scoreOf
  rw [find?_map_of_preserves_id hf]
  cases players.find? (fun p => p.id == i) <;> rfl


theorem scoreOf_guesser_after (players : List Player) (pid did : String)
    (pl : Player) (pts bonus : Int)
    (hfind : players.find? (fun p => p.id == pid) = some pl)
    (hne : pid ≠ did) (b : Bool) :
    scoreOf
      (if b then
        ((players.map (fun p =>
            if p.id == pid then { p with score := p.score + pts, hasGuessedCorrectly := true }
            else p)).map (fun p =>
            if p.id == did then { p with score := p.score + bonus } else p))
      else
        players.map (fun p =>
          if p.id == pid then { p with score := p.score + pts, hasGuessedCorrectly := true }
          else p)) pid = scoreOf players pid + pts := by
  have hplid : pl.id = pid := by simpa using List.find?_some hfind
  have hf : ∀ p : Player,
      ((if p.id == pid then { p with score := p.score + pts, hasGuessedCorrectly := true }
        else p) : Player).id = p.id := by
    intro p
    by_cases h : (p.id == pid) = true <;> simp [h]
  have hg : ∀ p : Player,
      ((if p.id == did then { p with score := p.score + bonus } else p) : Player).id = p.id := by
    intro p
    by_cases h : (p.id == did) = true <;> simp [h]
  have hbase : scoreOf players pid = pl.score := by
    unfold scoreOf
    rw [hfind]
  cases b with
  | false =>
    simp only [if_neg Bool.false_ne_true]
    rw [scoreOf_map_pres _ _ _ hf, hfind, hbase]
    simp [hplid]
  | true =>
    rw [if_pos rfl]
    rw [scoreOf_map_pres _ _ _ hg, find?_map_of_preserves_id hf, hfind, hbase]
    have h2 : (pid == did) = false := by simpa using hne
    simp [hplid, h2]

theorem scoreOf_drawer_after (players : List Player) (pid did : String)
    (drawer : Player) (pts bonus : Int)
    (hfindd : players.find? (fun p => p.id == did) = some drawer)
    (hne : pid ≠ did) (b : Bool) :
    scoreOf
      (if b then
        ((players.map (fun p =>
            if p.id == pid then { p with score := p.score + pts, hasGuessedCorrectly := true }
            else p)).map (fun p =>
            if p.id == did then { p with score := p.score + bonus } else p))
      else
        players.map (fun p =>
          if p.id == pid then { p with score := p.score + pts, hasGuessedCorrectly := true }
          else p)) did = scoreOf players did + (if b then bonus else 0) := by
  have hdid : drawer.id = did := by simpa using List.find?_some hfindd
  have hf : ∀ p : Player,
      ((if p.id == pid then { p with score := p.score + pts, hasGuessedCorrectly := true }
        else p) : Player).id = p.id := by
    intro p
    by_cases h : (p.id == pid) = true <;> simp [h]
  have hg : ∀ p : Player,
      ((if p.id == did then { p with score := p.score + bonus } else p) : Player).id = p.id := by
    intro p
    by_cases h : (p.id == did) = true <;> simp [h]
  have hbase : scoreOf players did = drawer.score := by
    unfold scoreOf
    rw [hfindd]
  have hno : (drawer.id == pid) = false := by
    simp only [hdid]
    simpa using fun h => hne h.symm
  cases b with
  | false =>
    simp only [if_neg Bool.false_ne_true]
    rw [scoreOf_map_pres _ _ _ hf, hfindd, hbase]
    simp [hno]
  | true =>
    rw [if_pos rfl, if_pos rfl]
    rw [scoreOf_map_pres _ _ _ hg, find?_map_of_preserves_id hf, hfindd, hbase]
    have hnp : did ≠ pid := Ne.symm hne
    simp [hno, hdid, hnp]

/-- C2: the points awarded for a correct guess equal max(500 - 100*rank, 200),
where rank is the number of distinct non-drawer players already flagged
correct when the guess is processed; the guesser's score increases by exactly
that amount, and five successive correct guessers in one turn receive
500, 400, 300, 200, 200. -/
theorem c2_points_by_rank (state : GameState) (pid : String) (players : List Player)
    (pl drawer : Player)
    (hfind : players.find? (fun p => p.id == pid) = some pl)
    (hflag : pl.hasGuessedCorrectly = false)
    (hdr : players.get? state.currentPlayerIndex = some drawer)
    (hne : pid ≠ drawer.id)
    (hnodup : (players.map Player.id).Nodup) :
    (∃ out players2, handleCorrectGuess state pid players = (some out, players2) ∧
        out.points = specGuessPoints (specRank players drawer.id) ∧
        scoreOf players2 pid = scoreOf players pid + out.points) ∧
    runGuessSeq drawingStateIdx0 ["g1", "g2", "g3", "g4", "g5"] sixPlayersEx =
      [500, 400, 300, 200, 200] := by
  refine ⟨?_, by decide⟩
  simp only [handleCorrectGuess, hfind, hflag, hdr, if_false, Bool.false_eq_true]
  refine ⟨_, _, rfl, ?_, ?_⟩
  · unfold specGuessPoints specRank
    have hsub : ((players.filter
        (fun p => p.hasGuessedCorrectly && !(p.id == drawer.id))).map Player.id).Nodup :=
      hnodup.sublist ((players.filter_sublist).map Player.id)
    rw [List.dedup_eq_self.2 hsub, List.length_map]
    simp only [POINTS_GUESS_BASE, POINTS_GUESS_DECAY]
    congr 1
    ring
  · exact scoreOf_guesser_after players pid drawer.id pl _ _ hfind hne _
theorem earlyTurnEndDelayMs_eq (out : GuessOutcome) :
    earlyTurnEndDelayMs (some out) = if out.allGuessed then some 2000 else none := rfl

theorem allGuessed_iff_aux (players1 : List Player) (did : String) (bonus : Int) :
    (((players1.filter (fun p => !(p.id == did))).all (fun p => p.hasGuessedCorrectly)) = true ↔
      ∀ p ∈ (if (players1.filter (fun p => !(p.id == did))).all (fun p => p.hasGuessedCorrectly)
          then players1.map
            (fun p => if p.id == did then { p with score := p.score + bonus } else p)
          else players1),
        p.id ≠ did → p.hasGuessedCorrectly = true) := by
  by_cases hb : ((players1.filter (fun p => !(p.id == did))).all
      (fun p => p.hasGuessedCorrectly)) = true
  · rw [if_pos hb]
    simp only [hb, true_iff]
    intro p hp hpe
    rcases List.mem_map.1 hp with ⟨q, hq, rfl⟩
    have hqid : ((if q.id == did then ({ q with score := q.score + bonus } : Player)
        else q) : Player).id = q.id := by
      by_cases h : (q.id == did) = true <;> simp [h]
    have hqfl : ((if q.id == did then ({ q with score := q.score + bonus } : Player)
        else q) : Player).hasGuessedCorrectly = q.hasGuessedCorrectly := by
      by_cases h : (q.id == did) = true <;> simp [h]
    rw [hqfl]
    rw [hqid] at hpe
    refine List.all_eq_true.1 hb q (List.mem_filter.2 ⟨hq, ?_⟩)
    simpa using hpe
  · rw [if_neg hb]
    constructor
    · intro h
      exact absurd h hb
    · intro hall
      exact absurd (List.all_eq_true.2 (fun q hq =>
        hall q (List.mem_filter.1 hq).1 (by simpa using (List.mem_filter.1 hq).2))) hb

/-- C3: after a correct guess, result.allGuessed holds exactly when every
non-drawer member now has hasGuessedCorrectly; in that case the drawer's score
rises by exactly 300 (on top of the guesser's payout) and the submit-guess
handler schedules the early turn end with a 2000 ms delay; otherwise the
drawer's score is unchanged by the guess and no early end is scheduled. -/
theorem c3_all_guessed_drawer_bonus (state : GameState) (pid : String)
    (players : List Player) (pl drawer : Player)
    (hfind : players.find? (fun p => p.id == pid) = some pl)
    (hflag : pl.hasGuessedCorrectly = false)
    (hdr : players.get? state.currentPlayerIndex = some drawer)
    (hne : pid ≠ drawer.id)
    (hnodup : (players.map Player.id).Nodup) :
    ∃ out players2, handleCorrectGuess state pid players = (some out, players2) ∧
      (out.allGuessed = true ↔
        ∀ p ∈ players2, p.id ≠ drawer.id → p.hasGuessedCorrectly = true) ∧
      (out.allGuessed = true →
        scoreOf players2 drawer.id = scoreOf players drawer.id + POINTS_DRAWER_ALL_GUESSED ∧
        earlyTurnEndDelayMs (some out) = some 2000) ∧
      (out.allGuessed = false →
        scoreOf players2 drawer.id = scoreOf players drawer.id ∧
        earlyTurnEndDelayMs (some out) = none) ∧
      scoreOf players2 pid = scoreOf players pid + out.points := by
  have hfindd : players.find? (fun p => p.id == drawer.id) = some drawer :=
    find?_eq_of_get?_nodup hnodup hdr
  simp only [handleCorrectGuess, hfind, hflag, hdr, if_false, Bool.false_eq_true]
  refine ⟨_, _, rfl, ?_, ?_, ?_, ?_⟩
  · dsimp only
    exact allGuessed_iff_aux _ drawer.id POINTS_DRAWER_ALL_GUESSED
  · intro hag
    dsimp only at hag
    constructor
    · rw [hag, scoreOf_drawer_after players pid drawer.id drawer _ _ hfindd hne true,
        if_pos rfl]
    · rw [earlyTurnEndDelayMs_eq]
      dsimp only
      rw [hag, if_pos rfl]
  · intro hag
    dsimp only at hag
    constructor
    · rw [hag, scoreOf_drawer_after players pid drawer.id drawer _ _ hfindd hne false,
        if_neg Bool.false_ne_true, add_zero]
    · rw [earlyTurnEndDelayMs_eq]
      dsimp only
      rw [hag, if_neg Bool.false_ne_true]
  · dsimp only
    exact scoreOf_guesser_after players pid drawer.id pl _ _ hfind hne _
/-- C2 witness: the rank formula instantiated for the first guesser of a
six-member room. -/
theorem c2_points_by_rank_witness :
    ((∃ out players2,
        handleCorrectGuess drawingStateIdx0 "g1" sixPlayersEx = (some out, players2) ∧
        out.points = specGuessPoints (specRank sixPlayersEx "d") ∧
        scoreOf players2 "g1" = scoreOf sixPlayersEx "g1" + out.points) ∧
      runGuessSeq drawingStateIdx0 ["g1", "g2", "g3", "g4", "g5"] sixPlayersEx =
        [500, 400, 300, 200, 200]) :=
  c2_points_by_rank drawingStateIdx0 "g1" sixPlayersEx ⟨"g1", "G1", 0, false⟩
    ⟨"d", "Drawer", 0, false⟩ (by decide) rfl rfl (by decide) (by decide)

/-- C3 witness: the bonus characterization instantiated for the lone guesser
of a two-member room. -/
theorem c3_all_guessed_drawer_bonus_witness :
    ∃ out players2,
      handleCorrectGuess drawingStateIdx0 "a2" twoPlayersEx = (some out, players2) ∧
      (out.allGuessed = true ↔
        ∀ p ∈ players2, p.id ≠ "d2" → p.hasGuessedCorrectly = true) ∧
      (out.allGuessed = true →
        scoreOf players2 "d2" = scoreOf twoPlayersEx "d2" + POINTS_DRAWER_ALL_GUESSED ∧
        earlyTurnEndDelayMs (some out) = some 2000) ∧
      (out.allGuessed = false →
        scoreOf players2 "d2" = scoreOf twoPlayersEx "d2" ∧
        earlyTurnEndDelayMs (some out) = none) ∧
      scoreOf players2 "a2" = scoreOf twoPlayersEx "a2" + out.points :=
  c3_all_guessed_drawer_bonus drawingStateIdx0 "a2" twoPlayersEx ⟨"a2", "Ann", 0, false⟩
    ⟨"d2", "Draws", 0, false⟩ (by decide) rfl rfl (by decide) (by decide)

theorem alookup_aupdate {α : Type} (m : List (String × α)) (k : String) (v : α) :
    alookup (aupdate m k v) k = (alookup m k).map (fun _ => v) := by
  unfold alookup aupdate
  rw [List.find?_map]
  have hpred : ((fun e => e.1 == k) ∘ (fun e : String × α => if e.1 == k then (e.1, v) else e))
      = (fun e => e.1 == k) := by
    funext e
    by_cases h : (e.1 == k) = true <;> simp [Function.comp, h]
  rw [hpred]
  cases hf : m.find? (fun e => e.1 == k) with
  | none => rfl
  | some e =>
    have h2 : e.1 = k := by simpa using List.find?_some hf
    simp [h2]

theorem alookup_aerase {α : Type} (m : List (String × α)) (k : String) :
    alookup (aerase m k) k = none := by
  unfold alookup aerase
  have : (m.filter (fun e => !(e.1 == k))).find? (fun e => e.1 == k) = none := by
    rw [List.find?_eq_none]
    intro e he
    simpa using (List.mem_filter.1 he).2
  rw [this]
  rfl

/-- C5 (amended): addPlayerToRoom fails with RoomNotFound when no room has the
code, then RoomFull when the member count is at least the capacity, then
GameInProgress when the status is PLAYING; only when none of those checks
fails does an existing member rejoin idempotently without membership change;
otherwise the player is appended, and the first player added to a room becomes
its host. Rooms are created with capacity 8, status WAITING and no members.
The right-hand side is the amended claim written out as its own definition. -/
theorem c5_amended_addPlayer :
    (∀ reg roomCode player, addPlayerToRoom reg roomCode player
      = addPlayerSpec reg roomCode player) ∧
    (∀ reg code name priv pass now,
      (createRoom reg code name priv pass now).2.maxPlayers = 8 ∧
      (createRoom reg code name priv pass now).2.status = RoomStatus.WAITING ∧
      (createRoom reg code name priv pass now).2.players = []) := by
  constructor
  · intro reg roomCode player
    unfold addPlayerToRoom addPlayerSpec
    cases alookup reg roomCode with
    | none => rfl
    | some room =>
      dsimp only
      by_cases hfull : room.players.length ≥ room.maxPlayers
      · rw [if_pos hfull, if_pos hfull]
      · rw [if_neg hfull, if_neg hfull]
        by_cases hplay : (room.status == RoomStatus.PLAYING) = true
        · rw [if_pos hplay, if_pos hplay]
        · rw [if_neg hplay, if_neg hplay]
          cases hf : room.players.find? (fun p => p.id == player.id) with
          | some e =>
            have hmem := List.mem_of_find?_eq_some hf
            have hpe := List.find?_some hf
            have hany : (room.players.any (fun p => p.id == player.id)) = true :=
              List.any_eq_true.2 ⟨e, hmem, hpe⟩
            rw [if_pos hany]
          | none =>
            have hany : ¬((room.players.any (fun p => p.id == player.id)) = true) := by
              rw [List.any_eq_true]
              rintro ⟨x, hx, hpx⟩
              exact absurd hpx (by simpa using List.find?_eq_none.1 hf x hx)
            rw [if_neg hany]
            have hlen : ((room.players ++ [player]).length == 1) = room.players.isEmpty := by
              cases room.players <;> simp
            simp only [hlen]
  · intro reg code name priv pass now
    exact ⟨rfl, rfl, rfl⟩

/-- C5 counterexample: the claim exempts existing members from the RoomFull and
GameInProgress failures, but the source checks fullness before membership: a
player who already is one of the 8 members of a full WAITING room is rejected
with RoomFull instead of rejoining idempotently. -/
theorem c5_counterexample_member_rejoin_full_room :
    (fullRoomEx.players.any (fun p => p.id == "p1")) = true ∧
    fullRoomEx.status = RoomStatus.WAITING ∧
    (addPlayerToRoom [("R1", fullRoomEx)] "R1" ⟨"p1", "P1", 0, false⟩).2 =
      Except.error JoinError.RoomFull := by
  exact ⟨rfl, rfl, rfl⟩

/-- C8: removePlayer removes the member with the given identity; if the
membership becomes empty the room is deleted, deleted=true is signalled and
the leave-room caller tears down the room's GameState; otherwise the room
survives with the filtered membership, the game state is untouched, and if the
removed player was the host the first remaining member in list order becomes
the new host. -/
theorem c8_remove_player (s : ServerState) (code pid : String) (room : Room)
    (h : alookup s.rooms code = some room) :
    (room.players.filter (fun p => !(p.id == pid)) = [] →
      (removePlayerFromRoom s.rooms code pid).2 = Except.ok ⟨none, true⟩ ∧
      alookup (leaveRoomStep s code pid).rooms code = none ∧
      alookup (leaveRoomStep s code pid).gameStates code = none) ∧
    (∀ q qs, room.players.filter (fun p => !(p.id == pid)) = q :: qs →
      ∃ room2, (removePlayerFromRoom s.rooms code pid).2 = Except.ok ⟨some room2, false⟩ ∧
        alookup (leaveRoomStep s code pid).rooms code = some room2 ∧
        room2.players = room.players.filter (fun p => !(p.id == pid)) ∧
        (room.hostId = some pid → room2.hostId = some q.id) ∧
        alookup (leaveRoomStep s code pid).gameStates code = alookup s.gameStates code) := by
  constructor
  · intro hempty
    have hrm : removePlayerFromRoom s.rooms code pid =
        (aerase s.rooms code, Except.ok ⟨none, true⟩) := by
      unfold removePlayerFromRoom
      rw [h]
      dsimp only
      rw [hempty]
      rfl
    refine ⟨by rw [hrm], ?_, ?_⟩
    · unfold leaveRoomStep
      rw [hrm]
      exact alookup_aerase _ _
    · unfold leaveRoomStep
      rw [hrm]
      exact alookup_aerase _ _
  · intro q qs hcons
    have hne : (room.players.filter (fun p => !(p.id == pid))).isEmpty = false := by
      rw [hcons]
      rfl
    by_cases hh : (room.hostId == some pid) = true
    · have hrm : removePlayerFromRoom s.rooms code pid =
          (aupdate s.rooms code
            { room with
                players := room.players.filter (fun p => !(p.id == pid))
                hostId := ((room.players.filter (fun p => !(p.id == pid))).head?).map Player.id },
            Except.ok
              ⟨some
                { room with
                    players := room.players.filter (fun p => !(p.id == pid))
                    hostId :=
                      ((room.players.filter (fun p => !(p.id == pid))).head?).map Player.id },
                false⟩) := by
        unfold removePlayerFromRoom
        rw [h]
        dsimp only
        rw [if_neg (by rw [hne]; exact Bool.false_ne_true)]
        rw [if_pos (by rw [hh, hcons]; simp)]
      refine ⟨_, by rw [hrm], ?_, rfl, ?_, ?_⟩
      · unfold leaveRoomStep
        rw [hrm]
        dsimp only
        rw [if_neg Bool.false_ne_true]
        dsimp only
        rw [alookup_aupdate, h]
        rfl
      · intro _
        show ((room.players.filter (fun p => !(p.id == pid))).head?).map Player.id = some q.id
        rw [hcons]
        rfl
      · unfold leaveRoomStep
        rw [hrm]
        dsimp only
        rw [if_neg Bool.false_ne_true]
    · have hrm : removePlayerFromRoom s.rooms code pid =
          (aupdate s.rooms code
            { room with players := room.players.filter (fun p => !(p.id == pid)) },
            Except.ok
              ⟨some { room with players := room.players.filter (fun p => !(p.id == pid)) },
                false⟩) := by
        unfold removePlayerFromRoom
        rw [h]
        dsimp only
        rw [if_neg (by rw [hne]; exact Bool.false_ne_true)]
        rw [if_neg (by rw [Bool.and_eq_true]; rintro ⟨h1, h2⟩; exact hh h1)]
      refine ⟨_, by rw [hrm], ?_, rfl, ?_, ?_⟩
      · unfold leaveRoomStep
        rw [hrm]
        dsimp only
        rw [if_neg Bool.false_ne_true]
        dsimp only
        rw [alookup_aupdate, h]
        rfl
      · intro hhost
        exact absurd (by simp [hhost]) hh
      · unfold leaveRoomStep
        rw [hrm]
        dsimp only
        rw [if_neg Bool.false_ne_true]

/-- C8 witness: the host of a two-member room leaves; the other member is
promoted and the game state survives. -/
theorem c8_remove_player_witness :
    ∃ room2, (removePlayerFromRoom serverEx.rooms "RM" "h1").2 =
        Except.ok ⟨some room2, false⟩ ∧
      alookup (leaveRoomStep serverEx "RM" "h1").rooms "RM" = some room2 ∧
      room2.players = roomRemEx.players.filter (fun p => !(p.id == "h1")) ∧
      (roomRemEx.hostId = some "h1" → room2.hostId = some "m2") ∧
      alookup (leaveRoomStep serverEx "RM" "h1").gameStates "RM" =
        alookup serverEx.gameStates "RM" :=
  (c8_remove_player serverEx "RM" "h1" roomRemEx rfl).2 ⟨"m2", "M", 0, false⟩ [] rfl

theorem getD_mem {l : List WordOption} {i : Nat} (h : i < l.length) :
    l.getD i default ∈ l := by
  rw [List.getD_eq_getElem?_getD, List.getElem?_eq_getElem h]
  exact List.getElem_mem h

theorem perm_shuffleGo (n : Nat) (r : List Nat) (l : List WordOption) :
    (shuffleGo n r l).Perm l := by
  induction n generalizing r l with
  | zero => exact List.Perm.refl l
  | succ n ih =>
    unfold shuffleGo
    by_cases hl : l.length = 0
    · rw [if_pos hl]
    · rw [if_neg hl]
      have hlt : (pickIdx r l.length).1 < l.length := by
        cases r with
        | nil => exact Nat.pos_of_ne_zero hl
        | cons a rs => exact Nat.mod_lt _ (Nat.pos_of_ne_zero hl)
      have h1 : (l.eraseIdx (pickIdx r l.length).1).Perm
          (l.erase (l.getD (pickIdx r l.length).1 default)) := by
        have := List.erase_getElem (l := l) (i := (pickIdx r l.length).1) hlt
        rw [List.getD_eq_getElem?_getD, List.getElem?_eq_getElem hlt]
        exact this.symm
      refine List.Perm.trans (List.Perm.cons _ (List.Perm.trans (ih _ _) h1)) ?_
      exact (List.perm_cons_erase (getD_mem hlt)).symm

theorem pickIdx_lt (r : List Nat) {n : Nat} (h : 0 < n) : (pickIdx r n).1 < n := by
  cases r with
  | nil => exact h
  | cons a rs => exact Nat.mod_lt _ h

theorem pickCat_spec (catWords sel : List WordOption) (r : List Nat) :
    ∃ extra r2, pickCat catWords sel r = (sel ++ extra, r2) ∧
      (extra = [] ∨ ∃ w, extra = [w] ∧ w ∈ catWords) ∧
      (0 < catWords.length → ∃ w, extra = [w] ∧ w ∈ catWords) := by
  unfold pickCat
  by_cases h : 0 < catWords.length
  · rw [if_pos h]
    exact ⟨[catWords.getD (pickIdx r catWords.length).1 default], _, rfl,
      Or.inr ⟨_, rfl, getD_mem (pickIdx_lt r h)⟩,
      fun _ => ⟨_, rfl, getD_mem (pickIdx_lt r h)⟩⟩
  · rw [if_neg h]
    exact ⟨[], r, by rw [List.append_nil], Or.inl rfl, fun hh => absurd hh h⟩

theorem fillOptions_spec (fuel : Nat) (sel avail : List WordOption) (r : List Nat) :
    ∃ extra r2, fillOptions fuel sel avail r = (sel ++ extra, r2) ∧
      (sel.Nodup → (sel ++ extra).Nodup) := by
  induction fuel generalizing sel r with
  | zero => exact ⟨[], r, by rw [List.append_nil]; rfl, by rw [List.append_nil]; exact id⟩
  | succ fuel ih =>
    unfold fillOptions
    by_cases hc : sel.length < 3 ∧ 0 < avail.length
    · rw [if_pos hc]
      by_cases hdup : (sel.any (fun s =>
          s.word == (avail.getD (pickIdx r avail.length).1 default).word)) = true
      · rw [if_pos hdup]
        exact ih sel _
      · rw [if_neg hdup]
        obtain ⟨extra2, r2, heq, hnd⟩ :=
          ih (sel ++ [avail.getD (pickIdx r avail.length).1 default]) (pickIdx r avail.length).2
        refine ⟨[avail.getD (pickIdx r avail.length).1 default] ++ extra2, r2, ?_, ?_⟩
        · rw [heq, List.append_assoc]
        · intro hsel
          rw [← List.append_assoc]
          apply hnd
          rw [List.nodup_append]
          refine ⟨hsel, List.nodup_singleton _, ?_⟩
          intro a ha hmem
          rw [List.mem_singleton] at hmem
          subst hmem
          have h3 := List.any_eq_false.1 (Bool.eq_false_iff.2 hdup) _ ha
          exact h3 (beq_self_eq_true _)
    · rw [if_neg hc]
      exact ⟨[], r, by rw [List.append_nil], by rw [List.append_nil]; exact id⟩

theorem mem_shuffled_take {w0 : WordOption} {S extra : List WordOption} {r4 : List Nat}
    (hmem : w0 ∈ S) (hS3 : S.length ≤ 3) :
    w0 ∈ shuffleOptions r4 ((S ++ extra).take 3) := by
  unfold shuffleOptions
  refine (perm_shuffleGo _ _ _).mem_iff.2 ?_
  rw [List.take_append_eq_append_take, List.take_of_length_le hS3]
  exact List.mem_append_left _ hmem

/-- C6 (amended): for every round, exclusion list and random choices, the
offered word options are pairwise-distinct options (no option is repeated,
though one word may appear under two categories when the pool lists it under
both), and whenever the available pool contains a word of a category, at least
one representative of that category is offered. -/
theorem c6_amended_distinct_options_and_coverage (round : Nat) (ex : List String)
    (rand : List Nat) (fuel : Nat) :
    (generateWordOptions round ex rand fuel).Nodup ∧
    (∀ cat, (∃ w ∈ availableFor round ex, w.category = cat) →
      ∃ o ∈ generateWordOptions round ex rand fuel, o.category = cat) := by
  obtain ⟨e1, r1, h1, hs1, hp1⟩ := pickCat_spec
    ((availableFor round ex).filter (fun w => w.category == WordCategory.ACTION)) [] rand
  obtain ⟨e2, r2, h2, hs2, hp2⟩ := pickCat_spec
    ((availableFor round ex).filter (fun w => w.category == WordCategory.THING)) e1 r1
  obtain ⟨e3, r3, h3, hs3, hp3⟩ := pickCat_spec
    ((availableFor round ex).filter (fun w => w.category == WordCategory.PLACE))
    (e1 ++ e2) r2
  obtain ⟨extra, r4, h4, hnd4⟩ := fillOptions_spec fuel (e1 ++ e2 ++ e3)
    (availableFor round ex) r3
  have hgen : generateWordOptions round ex rand fuel =
      shuffleOptions r4 ((e1 ++ e2 ++ e3 ++ extra).take 3) := by
    simp only [generateWordOptions]
    rw [h1]
    dsimp only
    rw [List.nil_append]
    rw [h2]
    dsimp only
    rw [h3]
    dsimp only
    rw [h4]
  have hcat : ∀ (cat : WordCategory) (e : List WordOption),
      (e = [] ∨ ∃ w, e = [w] ∧
        w ∈ (availableFor round ex).filter (fun x => x.category == cat)) →
      ∀ w ∈ e, w.category = cat := by
    rintro cat e (rfl | ⟨w0, rfl, hw0⟩) w hw
    · exact absurd hw (List.not_mem_nil w)
    · rw [List.mem_singleton] at hw
      subst hw
      simpa using (List.mem_filter.1 hw0).2
  have hc1 := hcat WordCategory.ACTION e1 hs1
  have hc2 := hcat WordCategory.THING e2 hs2
  have hc3 := hcat WordCategory.PLACE e3 hs3
  have hl1 : e1.length ≤ 1 := by rcases hs1 with rfl | ⟨w0, rfl, _⟩ <;> simp
  have hl2 : e2.length ≤ 1 := by rcases hs2 with rfl | ⟨w0, rfl, _⟩ <;> simp
  have hl3 : e3.length ≤ 1 := by rcases hs3 with rfl | ⟨w0, rfl, _⟩ <;> simp
  have hS3 : (e1 ++ e2 ++ e3).length ≤ 3 := by
    simp only [List.length_append]
    omega
  have hndS : (e1 ++ e2 ++ e3).Nodup := by
    rw [List.nodup_append, List.nodup_append]
    refine ⟨⟨?_, ?_, ?_⟩, ?_, ?_⟩
    · rcases hs1 with rfl | ⟨w0, rfl, _⟩ <;> simp
    · rcases hs2 with rfl | ⟨w0, rfl, _⟩ <;> simp
    · intro a ha1 ha2
      have := hc1 a ha1
      rw [hc2 a ha2] at this
      exact absurd this (by simp)
    · rcases hs3 with rfl | ⟨w0, rfl, _⟩ <;> simp
    · intro a ha12 ha3
      rcases List.mem_append.1 ha12 with ha1 | ha2
      · have := hc1 a ha1
        rw [hc3 a ha3] at this
        exact absurd this (by simp)
      · have := hc2 a ha2
        rw [hc3 a ha3] at this
        exact absurd this (by simp)
  constructor
  · rw [hgen]
    unfold shuffleOptions
    refine ((perm_shuffleGo _ _ _).symm).nodup ?_
    exact (hnd4 hndS).sublist (List.take_sublist 3 _)
  · rintro cat ⟨w, hwav, hwcat⟩
    have hmemf : w ∈ (availableFor round ex).filter (fun x => x.category == cat) :=
      List.mem_filter.2 ⟨hwav, by simp [hwcat]⟩
    cases cat with
    | ACTION =>
      obtain ⟨w0, he, hw0⟩ := hp1 (List.length_pos_of_mem hmemf)
      refine ⟨w0, ?_, by simpa using (List.mem_filter.1 hw0).2⟩
      rw [hgen]
      refine mem_shuffled_take ?_ hS3
      exact List.mem_append_left _ (List.mem_append_left _ (he ▸ List.mem_singleton_self w0))
    | THING =>
      obtain ⟨w0, he, hw0⟩ := hp2 (List.length_pos_of_mem hmemf)
      refine ⟨w0, ?_, by simpa using (List.mem_filter.1 hw0).2⟩
      rw [hgen]
      refine mem_shuffled_take ?_ hS3
      exact List.mem_append_left _ (List.mem_append_right _ (he ▸ List.mem_singleton_self w0))
    | PLACE =>
      obtain ⟨w0, he, hw0⟩ := hp3 (List.length_pos_of_mem hmemf)
      refine ⟨w0, ?_, by simpa using (List.mem_filter.1 hw0).2⟩
      rw [hgen]
      refine mem_shuffled_take ?_ hS3
      exact List.mem_append_right _ (he ▸ List.mem_singleton_self w0)
/-- C6 counterexample: the claim asserts pairwise-distinct words, but the hard
pool lists Waterfall both as a THING and as a PLACE; with every other hard
word excluded the three category picks offer the word Waterfall twice. -/
theorem c6_counterexample_duplicate_word :
    (generateWordOptions 3 hardExcludeEx [] 10).map WordOption.word =
      ["Learning", "Waterfall", "Waterfall"] ∧
    ¬ ((generateWordOptions 3 hardExcludeEx [] 10).map WordOption.word).Nodup := by
  constructor
  · rfl
  · decide

/-- C6 witness: distinctness and ACTION-category coverage instantiated for
round 1 with nothing excluded. -/
theorem c6_amended_witness :
    (generateWordOptions 1 [] [] 3).Nodup ∧
    ∃ o ∈ generateWordOptions 1 [] [] 3, o.category = WordCategory.ACTION :=
  ⟨(c6_amended_distinct_options_and_coverage 1 [] [] 3).1,
   (c6_amended_distinct_options_and_coverage 1 [] [] 3).2 WordCategory.ACTION
     ⟨⟨"Run", WordCategory.ACTION⟩, by decide, rfl⟩⟩

theorem mem_revealIndices (len timeLeft i : Nat) :
    i ∈ revealIndices len timeLeft ↔
      ((30 ≤ TURN_DURATION_SECONDS - timeLeft ∧ i = 0) ∨
       (60 ≤ TURN_DURATION_SECONDS - timeLeft ∧ 4 ≤ len ∧ i = len / 2)) := by
  unfold revealIndices
  by_cases h1 : 30 ≤ TURN_DURATION_SECONDS - timeLeft <;>
    by_cases h2 : 60 ≤ TURN_DURATION_SECONDS - timeLeft ∧ 4 ≤ len
  · rw [if_pos h1, if_pos h2]
    simp only [List.mem_append, List.mem_singleton]
    constructor
    · rintro (rfl | rfl)
      · exact Or.inl ⟨h1, rfl⟩
      · exact Or.inr ⟨h2.1, h2.2, rfl⟩
    · rintro (⟨_, rfl⟩ | ⟨_, _, rfl⟩)
      · exact Or.inl rfl
      · exact Or.inr rfl
  · rw [if_pos h1, if_neg h2]
    simp only [List.mem_append, List.mem_singleton, List.not_mem_nil, or_false]
    constructor
    · rintro rfl
      exact Or.inl ⟨h1, rfl⟩
    · rintro (⟨_, rfl⟩ | ⟨ha, hb, _⟩)
      · rfl
      · exact absurd ⟨ha, hb⟩ h2
  · exact absurd (le_trans (by omega) h2.1) h1
  · rw [if_neg h1, if_neg h2]
    simp only [List.append_nil, List.not_mem_nil, false_iff]
    rintro (⟨ha, _⟩ | ⟨ha, hb, _⟩)
    · exact h1 ha
    · exact h2 ⟨ha, hb⟩

theorem maskFrom_get? (indices : List Nat) (word : List Char) (i j : Nat) :
    (maskFrom indices i word).get? j = (word.get? j).map (fun c => maskChar indices (i + j) c) := by
  induction word generalizing i j with
  | nil => simp [maskFrom]
  | cons c cs ih =>
    cases j with
    | zero => simp [maskFrom]
    | succ j2 =>
      rw [maskFrom, List.get?_cons_succ, List.get?_cons_succ, ih]
      have : i + (j2 + 1) = (i + 1) + j2 := by omega
      rw [this]

theorem maskFrom_nil_indices (word : List Char) (i : Nat) :
    maskFrom [] i word = word.map (fun c => if isAlnumChar c then '_' else c) := by
  induction word generalizing i with
  | nil => rfl
  | cons c cs ih =>
    rw [maskFrom, List.map_cons, ih]
    congr 1
    unfold maskChar
    by_cases ha : isAlnumChar c = true
    · rw [if_neg (by simp [ha]), if_neg (List.not_mem_nil i), if_pos ha]
    · rw [if_pos (by simp [ha]), if_neg ha]

/-- C7 (amended): masking is characterized per position: non-alphanumeric
characters are always shown; the character at index 0 is revealed once 30
seconds have elapsed (this is the first alphanumeric character whenever the
word starts with one); the character at index len/2 is additionally revealed
once 60 seconds have elapsed on words of length at least 4; every other
position renders as the placeholder; and at 0 seconds elapsed every
alphanumeric position is masked. The projection is a pure function of the
word and the remaining time and never changes the stored word. -/
theorem c7_amended_masking (word : List Char) (timeLeft : Nat) (i : Nat) (c : Char)
    (h : word.get? i = some c) :
    ((maskedChars word timeLeft).get? i = some (
      if isAlnumChar c = false then c
      else if (30 ≤ TURN_DURATION_SECONDS - timeLeft ∧ i = 0) ∨
          (60 ≤ TURN_DURATION_SECONDS - timeLeft ∧ 4 ≤ word.length ∧ i = word.length / 2)
        then c else '_')) ∧
    maskedChars word TURN_DURATION_SECONDS =
      word.map (fun c => if isAlnumChar c then '_' else c) := by
  constructor
  · unfold maskedChars
    rw [maskFrom_get?, h]
    have h0 : 0 + i = i := Nat.zero_add i
    dsimp only [Option.map]
    rw [h0]
    congr 1
    by_cases ha : isAlnumChar c = true
    · by_cases hm : i ∈ revealIndices word.length timeLeft
      · have hL : maskChar (revealIndices word.length timeLeft) i c = c := by
          unfold maskChar
          rw [if_neg (by simp [ha]), if_pos hm]
        rw [hL, if_neg (by simp [ha]), if_pos ((mem_revealIndices _ _ _).1 hm)]
      · have hL : maskChar (revealIndices word.length timeLeft) i c = '_' := by
          unfold maskChar
          rw [if_neg (by simp [ha]), if_neg hm]
        rw [hL, if_neg (by simp [ha]), if_neg (fun hx => hm ((mem_revealIndices _ _ _).2 hx))]
    · have hL : maskChar (revealIndices word.length timeLeft) i c = c := by
        unfold maskChar
        rw [if_pos (by simp [ha])]
      rw [hL, if_pos (by simpa using ha)]
  · unfold maskedChars
    have hrev : revealIndices word.length TURN_DURATION_SECONDS = [] := by
      unfold revealIndices
      rw [if_neg (by omega), if_neg (by rintro ⟨h60, _⟩; omega)]
      rfl
    rw [hrev, maskFrom_nil_indices]

/-- C7 counterexample: the claim says that at 30 seconds elapsed exactly the
first alphanumeric character is revealed, but the source reveals index 0: for
a word starting with punctuation, the first alphanumeric character (index 1)
stays masked at 30 seconds elapsed. -/
theorem c7_counterexample_first_alnum_not_revealed :
    (List.findIdx isAlnumChar [ '!', 'H', 'i', '!' ] = 1) ∧
    maskedChars [ '!', 'H', 'i', '!' ] 50 = [ '!', '_', '_', '!' ] ∧
    (maskedChars [ '!', 'H', 'i', '!' ] 50).get? 1 ≠ some 'H' := by
  refine ⟨rfl, rfl, ?_⟩
  decide

/-- C7 witness: the per-position characterization instantiated at index 0 of a
four-letter word with 30 seconds elapsed. -/
theorem c7_amended_masking_witness :
    ((maskedChars [ 'C', 'a', 't', 's' ] 50).get? 0 = some (
      if isAlnumChar 'C' = false then 'C'
      else if (30 ≤ TURN_DURATION_SECONDS - 50 ∧ 0 = 0) ∨
          (60 ≤ TURN_DURATION_SECONDS - 50 ∧ 4 ≤ ([ 'C', 'a', 't', 's' ] : List Char).length ∧
            0 = ([ 'C', 'a', 't', 's' ] : List Char).length / 2)
        then 'C' else '_')) ∧
    maskedChars [ 'C', 'a', 't', 's' ] TURN_DURATION_SECONDS =
      ([ 'C', 'a', 't', 's' ] : List Char).map
        (fun c => if isAlnumChar c then '_' else c) :=
  c7_amended_masking [ 'C', 'a', 't', 's' ] 50 0 'C' rfl
/-- C9: in every reachable game state the remaining-seconds counter is
non-negative: it starts at 0, word selection sets it to the 80-second turn
duration, and each timer decrement clamps at 0. -/
theorem c9_timeLeft_nonneg (s : GameState) (h : Reachable s) : 0 ≤ s.timeLeft := by
  induction h with
  | init => exact le_refl 0
  | startGame _ ih => exact ih
  | startRound n _ ih => exact ih
  | startTurn i ws _ ih => exact ih
  | selectWord w _ _ => norm_num [selectWordState, TURN_DURATION_SECONDS]
  | updateCanvas d _ ih => exact ih
  | addMsg mid now m _ ih => exact ih
  | armTimer _ ih => exact ih
  | endTurnOp _ ih => exact ih
  | endTurnHandled mid now _ ih => exact ih
  | endRound _ ih =>
    unfold endRoundState
    split <;> exact ih
  | decrement _ _ => exact le_max_left 0 _

/-- C9 witness: the invariant evaluated after selecting a word and one timer
decrement. -/
theorem c9_timeLeft_nonneg_witness :
    0 ≤ (decrementTimerState (selectWordState initGameState
      ⟨"Cat", WordCategory.THING⟩)).timeLeft :=
  c9_timeLeft_nonneg _
    (Reachable.decrement (Reachable.selectWord ⟨"Cat", WordCategory.THING⟩ Reachable.init))

end DrawIt
